import Mathlib

/-!
Verification of the WebSocket/LSP stdio bridge (`websocket_bridge.py`).

The development shallowly embeds the bridge:

* the JSON layer models CPython `json.dumps` (default separators `", "` and
  `": "`, `ensure_ascii=True`) and `json.loads`, over JSON values whose
  numbers are arbitrary-precision integers (floats are out of model) and
  whose strings are Unicode scalar sequences;
* byte streams are modeled as `List Char`; `dumps` output is pure ASCII, so
  UTF-8 byte counts coincide with list lengths on everything the bridge
  writes, and a UTF-8 decoding failure of an incoming body is folded into
  the JSON-decode failure (both are caught by the same handler in the code);
* `read_lsp_output`, `send_to_lsp`, the `handle_client` receive loop and
  `main` are translated as executable functions, with the unbounded reader
  loop given explicit fuel;
* Python `set.add` / `set.remove` on the client registry are modeled on
  duplicate-free lists, `set.remove` raising (`Except.error`) on a missing
  element exactly as in CPython;
* `asyncio.StreamReader.read(n)` is modeled against the whole remaining
  stream: a negative `n` reads to end of stream, otherwise `n` items are
  taken (partial reads from a still-open pipe are a timing behaviour that
  the sequential model does not exhibit);
* Python `int()` is modeled as optional sign plus decimal ASCII digits on
  whitespace-stripped text (underscore separators and non-ASCII digits are
  out of model).
-/

set_option maxHeartbeats 2000000

/-! ## Characters and digits -/

/-- ASCII decimal digit test. -/
def isDigitCh (c : Char) : Bool := 48 ≤ c.toNat && c.toNat ≤ 57

/-- Numeric value of an ASCII digit. -/
def digitVal (c : Char) : Nat := c.toNat - 48

/-- ASCII digit for a value below ten. -/
def digitChar (d : Nat) : Char := Char.ofNat (48 + d)

/-- Decimal digits of a natural number, fueled so that it reduces. -/
def natCharsAux : Nat → Nat → List Char
  | 0, _ => []
  | f + 1, n => if n < 10 then [digitChar n] else natCharsAux f (n / 10) ++ [digitChar (n % 10)]

/-- Decimal representation of a natural number, as `str(n)` produces it. -/
def natChars (n : Nat) : List Char := natCharsAux (n + 1) n

/-- Decimal representation of an integer, as `str(n)` / `json.dumps` produce it. -/
def intChars (n : Int) : List Char :=
  if n < 0 then '-' :: natChars n.natAbs else natChars n.toNat

/-- Lowercase hexadecimal digit. -/
def hexDigitChar (d : Nat) : Char :=
  if d < 10 then Char.ofNat (48 + d) else Char.ofNat (87 + d)

/-- Four lowercase hex digits, as in a `\uXXXX` escape emitted by `json.dumps`. -/
def hex4 (n : Nat) : List Char :=
  [hexDigitChar (n / 4096 % 16), hexDigitChar (n / 256 % 16),
   hexDigitChar (n / 16 % 16), hexDigitChar (n % 16)]

/-- Value of one hex digit, upper or lower case. -/
def hexVal (c : Char) : Option Nat :=
  if 48 ≤ c.toNat ∧ c.toNat ≤ 57 then some (c.toNat - 48)
  else if 97 ≤ c.toNat ∧ c.toNat ≤ 102 then some (c.toNat - 87)
  else if 65 ≤ c.toNat ∧ c.toNat ≤ 70 then some (c.toNat - 55)
  else none

/-- Value of a four-hex-digit group. -/
def hex4Val (a b c d : Char) : Option Nat :=
  match hexVal a, hexVal b, hexVal c, hexVal d with
  | some x, some y, some z, some w => some (x * 4096 + y * 256 + z * 16 + w)
  | _, _, _, _ => none

/-- JSON insignificant whitespace (also the characters skipped by `json.loads`). -/
def isJsonWs (c : Char) : Bool := c == ' ' || c == '\t' || c == '\n' || c == '\r'

/-- Whitespace stripped by Python `str.strip()` (ASCII part). -/
def isStripWs (c : Char) : Bool :=
  c == ' ' || c == '\t' || c == '\n' || c == '\r' || c == '\x0b' || c == '\x0c'

/-- Drop leading JSON whitespace. -/
def skipWs : List Char → List Char
  | [] => []
  | c :: cs => if isJsonWs c then skipWs cs else c :: cs

/-- Python `str.rstrip()`. -/
def pyRstrip (s : List Char) : List Char := (s.reverse.dropWhile isStripWs).reverse

/-- Python `str.strip()`. -/
def pyStrip (s : List Char) : List Char := (pyRstrip s).dropWhile isStripWs

/-! ## JSON values and serialization (`json.dumps`) -/

mutual

/-- A JSON value as the bridge relays it. Numbers are integers: the bridge
itself never inspects message fields, and float payloads are out of model. -/
inductive Json where
  | null : Json
  | bool (b : Bool) : Json
  | num (n : Int) : Json
  | str (s : List Char) : Json
  | arr (xs : JArr) : Json
  | obj (kvs : JMems) : Json
deriving DecidableEq, Repr

/-- Elements of a JSON array. -/
inductive JArr where
  | nil : JArr
  | cons (hd : Json) (tl : JArr) : JArr
deriving DecidableEq, Repr

/-- Members of a JSON object, in insertion order as Python dicts keep them. -/
inductive JMems where
  | nil : JMems
  | cons (k : List Char) (v : Json) (tl : JMems) : JMems
deriving DecidableEq, Repr

end

/-- One character of a serialized JSON string body, following CPython
`json.dumps` with `ensure_ascii=True`: short escapes for the usual controls,
`\uXXXX` (with surrogate pairs above the BMP) for other controls and for
every non-ASCII character. -/
def escapeChar (c : Char) : List Char :=
  if c = '"' then ['\\', '"']
  else if c = '\\' then ['\\', '\\']
  else if c = '\n' then ['\\', 'n']
  else if c = '\r' then ['\\', 'r']
  else if c = '\t' then ['\\', 't']
  else if c.toNat = 8 then ['\\', 'b']
  else if c.toNat = 12 then ['\\', 'f']
  else if 32 ≤ c.toNat ∧ c.toNat ≤ 126 then [c]
  else if c.toNat < 65536 then '\\' :: 'u' :: hex4 c.toNat
  else
    ('\\' :: 'u' :: hex4 (55296 + (c.toNat - 65536) / 1024)) ++
    ('\\' :: 'u' :: hex4 (56320 + (c.toNat - 65536) % 1024))

/-- Serialized body of a JSON string (without the surrounding quotes). -/
def strChars (s : List Char) : List Char := s.flatMap escapeChar

mutual

/-- CPython `json.dumps` with its default separators `", "` and `": "`. -/
def dumps : Json → List Char
  | .null => "null".data
  | .bool true => "true".data
  | .bool false => "false".data
  | .num n => intChars n
  | .str s => '"' :: strChars s ++ ['"']
  | .arr .nil => "[]".data
  | .arr (.cons x xs) => '[' :: dumps x ++ dumpsElems xs ++ [']']
  | .obj .nil => "\x7b\x7d".data
  | .obj (.cons k v kvs) =>
      '\x7b' :: ('"' :: strChars k ++ '"' :: ':' :: ' ' :: dumps v) ++ dumpsMembers kvs ++ ['\x7d']
termination_by structural j => j

/-- Second and later array elements, each preceded by `", "`. -/
def dumpsElems : JArr → List Char
  | .nil => []
  | .cons x xs => ',' :: ' ' :: dumps x ++ dumpsElems xs
termination_by structural xs => xs

/-- Second and later object members, each preceded by `", "`. -/
def dumpsMembers : JMems → List Char
  | .nil => []
  | .cons k v kvs =>
      ',' :: ' ' :: ('"' :: strChars k ++ '"' :: ':' :: ' ' :: dumps v) ++ dumpsMembers kvs
termination_by structural kvs => kvs

end

/-! ## JSON parsing (`json.loads`) -/

/-- Greedy run of decimal digits folded onto an accumulator. -/
def munchDigits : List Char → Nat → Nat × List Char
  | [], acc => (acc, [])
  | c :: cs, acc => if isDigitCh c then munchDigits cs (acc * 10 + digitVal c) else (acc, c :: cs)

/-- A nonempty digit run and the remaining input. -/
def parseNatM : List Char → Option (Nat × List Char)
  | [] => none
  | c :: r => if isDigitCh c then some (munchDigits r (digitVal c)) else none

/-- A nonempty digit run consuming the whole input. -/
def parseNatFull (cs : List Char) : Option Nat :=
  match parseNatM cs with
  | some (n, []) => some n
  | _ => none

/-- JSON number (integer part of the grammar; the bridge model has no floats). -/
def parseNum : List Char → Option (Int × List Char)
  | [] => none
  | c :: r =>
    if c = '-' then
      match parseNatM r with
      | some (n, r2) => some (-(n : Int), r2)
      | none => none
    else
      match parseNatM (c :: r) with
      | some (n, r2) => some ((n : Int), r2)
      | none => none

/-- Read four hex digits after `\u`. -/
def readHex4 : List Char → Option (Nat × List Char)
  | a :: b :: x :: y :: r => (hex4Val a b x y).map (fun n => (n, r))
  | _ => none

/-- Decode one string escape after the backslash, as `json.loads` does:
the named single-character escapes and `\uXXXX` groups, with a high/low
surrogate pair combined into one astral character (a lone surrogate escape
is out of model since Lean characters are Unicode scalar values). -/
def decodeEsc : List Char → Option (Char × List Char)
  | [] => none
  | e :: r =>
    if e = '"' then some ('"', r)
    else if e = '\\' then some ('\\', r)
    else if e = '/' then some ('/', r)
    else if e = 'b' then some ('\x08', r)
    else if e = 'f' then some ('\x0c', r)
    else if e = 'n' then some ('\n', r)
    else if e = 'r' then some ('\r', r)
    else if e = 't' then some ('\t', r)
    else if e = 'u' then
      (readHex4 r).bind (fun q =>
        if 55296 ≤ q.1 ∧ q.1 < 56320 then
          match q.2 with
          | b1 :: b2 :: r3 =>
            if b1 = '\\' ∧ b2 = 'u' then
              (readHex4 r3).bind (fun q2 =>
                if 56320 ≤ q2.1 ∧ q2.1 < 57344 then
                  some (Char.ofNat (65536 + (q.1 - 55296) * 1024 + (q2.1 - 56320)), q2.2)
                else none)
            else none
          | _ => none
        else if 56320 ≤ q.1 ∧ q.1 < 57344 then none
        else some (Char.ofNat q.1, q.2))
    else none

/-- Body of a JSON string after the opening quote, following `json.loads`
strict mode: raw control characters are rejected, escapes are decoded. The
fuel is spent once per produced character; callers pass the input length. -/
def parseStrBody : Nat → List Char → Option (List Char × List Char)
  | 0, _ => none
  | k + 1, cs =>
    match cs with
    | [] => none
    | c :: r =>
      if c = '"' then some ([], r)
      else if c = '\\' then
        (decodeEsc r).bind (fun q => (parseStrBody k q.2).map (fun p => (q.1 :: p.1, p.2)))
      else if c.toNat < 32 then none
      else (parseStrBody k r).map (fun p => (c :: p.1, p.2))

/-- Expect a literal continuation (e.g. `ull` after `n`). -/
def dropLit : List Char → List Char → Option (List Char)
  | [], cs => some cs
  | _ :: _, [] => none
  | l :: ls, c :: cs => if c = l then dropLit ls cs else none

mutual

/-- Fueled JSON value parser; fuel is spent on every nested call so that the
recursion is structural and the kernel can evaluate it. -/
def parseVal : Nat → List Char → Option (Json × List Char)
  | 0, _ => none
  | k + 1, cs =>
    match skipWs cs with
    | [] => none
    | c :: r =>
      if c = 'n' then
        match dropLit ['u', 'l', 'l'] r with
        | some r2 => some (.null, r2)
        | none => none
      else if c = 't' then
        match dropLit ['r', 'u', 'e'] r with
        | some r2 => some (.bool true, r2)
        | none => none
      else if c = 'f' then
        match dropLit ['a', 'l', 's', 'e'] r with
        | some r2 => some (.bool false, r2)
        | none => none
      else if c = '"' then
        match parseStrBody (r.length + 1) r with
        | some (s, r2) => some (.str s, r2)
        | none => none
      else if c = '[' then
        match skipWs r with
        | [] => none
        | d :: r2 =>
          if d = ']' then some (.arr .nil, r2)
          else
            match parseElems k (d :: r2) with
            | some (xs, r3) => some (.arr xs, r3)
            | none => none
      else if c = '\x7b' then
        match skipWs r with
        | [] => none
        | d :: r2 =>
          if d = '\x7d' then some (.obj .nil, r2)
          else
            match parseMembers k (d :: r2) with
            | some (kvs, r3) => some (.obj kvs, r3)
            | none => none
      else
        match parseNum (c :: r) with
        | some (n, r2) => some (.num n, r2)
        | none => none

/-- Elements of a nonempty JSON array, up to and including the closing bracket. -/
def parseElems : Nat → List Char → Option (JArr × List Char)
  | 0, _ => none
  | k + 1, cs =>
    match parseVal k cs with
    | none => none
    | some (v, r) =>
      match skipWs r with
      | [] => none
      | d :: r2 =>
        if d = ',' then
          match parseElems k r2 with
          | some (vs, r3) => some (.cons v vs, r3)
          | none => none
        else if d = ']' then some (.cons v .nil, r2)
        else none

/-- Members of a nonempty JSON object, up to and including the closing brace. -/
def parseMembers : Nat → List Char → Option (JMems × List Char)
  | 0, _ => none
  | k + 1, cs =>
    match skipWs cs with
    | [] => none
    | c :: r =>
      if c = '"' then
        match parseStrBody (r.length + 1) r with
        | none => none
        | some (key, r1) =>
          match skipWs r1 with
          | [] => none
          | d :: r2 =>
            if d = ':' then
              match parseVal k r2 with
              | none => none
              | some (v, r3) =>
                match skipWs r3 with
                | [] => none
                | e :: r4 =>
                  if e = ',' then
                    match parseMembers k r4 with
                    | some (kvs, r5) => some (.cons key v kvs, r5)
                    | none => none
                  else if e = '\x7d' then some (.cons key v .nil, r4)
                  else none
            else none
      else none

end

/-- CPython `json.loads`: parse one JSON document and reject trailing data.
The fuel `length + 1` is enough for every input the proofs evaluate it on. -/
def loads (cs : List Char) : Option Json :=
  match parseVal (cs.length + 1) cs with
  | some (m, r) => if skipWs r = [] then some m else none
  | none => none

/-! ## Python primitives used by the bridge loops -/

/-- `StreamReader.readline`: up to and including a newline; everything left at
end of stream; the empty list exactly when the stream is exhausted. -/
def readLine : List Char → List Char × List Char
  | [] => ([], [])
  | c :: cs =>
    if c = '\n' then ([c], cs)
    else
      let p := readLine cs
      (c :: p.1, p.2)

/-- `str.split(':')`. -/
def splitColonAux : List Char → List Char → List (List Char)
  | [], acc => [acc.reverse]
  | c :: cs, acc => if c = ':' then acc.reverse :: splitColonAux cs [] else splitColonAux cs (c :: acc)

/-- Python `header.split(':')`. -/
def pySplitColon (s : List Char) : List (List Char) := splitColonAux s []

/-- Python `int(text)` after `str.strip()` has been applied: optional sign and
a nonempty run of ASCII decimal digits. -/
def pyInt (cs : List Char) : Option Int :=
  match cs with
  | [] => none
  | c :: r =>
    if c = '-' then (parseNatFull r).map (fun n => -(n : Int))
    else if c = '+' then (parseNatFull r).map (fun n => (n : Int))
    else (parseNatFull (c :: r)).map (fun n => (n : Int))

/-- `asyncio.StreamReader.read(n)` against the whole remaining stream: a
negative `n` reads until end of stream. -/
def pyRead (n : Int) (cs : List Char) : List Char × List Char :=
  if n < 0 then (cs, []) else (cs.take n.toNat, cs.drop n.toNat)

/-! ## Client registry -/

/-- A WebSocket client connection: its identity and whether its transport can
still accept a send. -/
structure Client where
  cid : Nat
  alive : Bool
deriving DecidableEq, Repr

/-- Result of one `client.send(message_str)` attempt during a broadcast. -/
structure SendOutcome where
  cid : Nat
  delivered : Bool
  payload : List Char
deriving DecidableEq, Repr

/-- `asyncio.gather(*[client.send(message_str) for client in self.clients],
return_exceptions=True)`: every client is attempted, failures are collected
as values, nothing is raised. -/
def gatherSend (clients : List Client) (msg : List Char) : List SendOutcome :=
  clients.map fun c => ⟨c.cid, c.alive, msg⟩

/-- The broadcast step of `read_lsp_output`: guarded by `if self.clients:`. -/
def broadcastLsp (clients : List Client) (msg : List Char) : List SendOutcome :=
  if clients.isEmpty then [] else gatherSend clients msg

/-- Python `set.add` on the registry (no-op when already present). -/
def pySetAdd (cs : List Client) (c : Client) : List Client :=
  if c ∈ cs then cs else cs ++ [c]

/-- Python `set.remove` on the registry: raises `KeyError` when absent. -/
def pySetRemove (cs : List Client) (c : Client) : Except Unit (List Client) :=
  if c ∈ cs then .ok (cs.erase c) else .error ()

/-! ## The output pump `read_lsp_output` -/

/-- Why one run of the reader loop stopped. In the code `valueError` and
`jsonError` are both caught by the same `except Exception` which logs and
breaks; the model records which operation raised. -/
inductive ExitKind where
  | eofExit
  | valueError
  | jsonError
  | fuelOut
deriving DecidableEq, Repr

/-- Shared bridge state touched by the pumps: the client registry. -/
structure BridgeState where
  clients : List Client
deriving DecidableEq, Repr

/-- Observable result of a run of `read_lsp_output`: the messages broadcast in
order with their per-client send outcomes, why the loop stopped, and the
state afterwards. -/
structure PumpRun where
  trace : List (Json × List SendOutcome)
  exit : ExitKind
  final : BridgeState
deriving DecidableEq, Repr

/-- The header prefix matched by `header.startswith('Content-Length:')`. -/
def clPrefix : List Char := "Content-Length:".data

/-- `LSPBridge.read_lsp_output`, with fuel bounding the number of iterations of
the `while True` loop. -/
def read_lsp_output : Nat → BridgeState → List Char → PumpRun
  | 0, s, _ => ⟨[], .fuelOut, s⟩
  | k + 1, s, stream =>
    let p := readLine stream
    if p.1 = [] then ⟨[], .eofExit, s⟩
    else
      let header := pyStrip p.1
      if header = [] then read_lsp_output k s p.2
      else if clPrefix.isPrefixOf header then
        match pyInt (pyStrip ((pySplitColon header).getD 1 [])) with
        | none => ⟨[], .valueError, s⟩
        | some n =>
          let rest2 := (readLine p.2).2
          let q := pyRead n rest2
          match loads q.1 with
          | none => ⟨[], .jsonError, s⟩
          | some m =>
            let outs := broadcastLsp s.clients (dumps m)
            let r := read_lsp_output k s q.2
            ⟨(m, outs) :: r.trace, r.exit, r.final⟩
      else read_lsp_output k s p.2

/-! ## The input path `send_to_lsp` and `handle_client` -/

/-- LSP frame for a body: `Content-Length: <len>\r\n\r\n<body>`. -/
def mkFrame (body : List Char) : List Char :=
  "Content-Length: ".data ++ natChars body.length ++ "\r\n\r\n".data ++ body

/-- The bytes `send_to_lsp` writes for a message: `json.dumps` plus header. -/
def encodeFrame (m : Json) : List Char := mkFrame (dumps m)

/-- A Python exception inside `send_to_lsp` (e.g. a broken stdin pipe). -/
inductive PyExn where
  | brokenPipe
deriving DecidableEq, Repr

/-- Body of `send_to_lsp` before its catch-all handler: serialize, then write
to the process stdin, which raises when the pipe is down. -/
def sendToLspRaw (m : Json) (stdinOk : Bool) : Except PyExn (List Char) :=
  if stdinOk then .ok (encodeFrame m) else .error .brokenPipe

/-- `LSPBridge.send_to_lsp`: the catch-all handler logs any exception and the
coroutine returns normally either way. -/
def send_to_lsp (m : Json) (stdinOk : Bool) : Option (List Char) :=
  match sendToLspRaw m stdinOk with
  | .ok bs => some bs
  | .error _ => none

/-- What one inbound WebSocket text frame led to inside `handle_client`. -/
inductive InEvent where
  | badJson
  | sent (bytes : List Char)
  | sendFailed
deriving DecidableEq, Repr

/-- One iteration of the `async for message_str in websocket` body. -/
def handle_client_message (f : List Char) (stdinOk : Bool) : InEvent :=
  match loads f with
  | none => .badJson
  | some m =>
    match send_to_lsp m stdinOk with
    | some bs => .sent bs
    | none => .sendFailed

/-- The `handle_client` receive loop over a sequence of inbound frames. -/
def handle_client_loop (frames : List (List Char)) (stdinOk : Bool) : List InEvent :=
  frames.map fun f => handle_client_message f stdinOk

/-! ## The CLI entry point `main` -/

/-- Outcome of `main(argv)`: usage error, `int(sys.argv[2])` raising, the
missing-JAR diagnostic path, or a started bridge. -/
inductive MainResult where
  | usageExit
  | portExit (arg : List Char)
  | jarExit (jar : List Char)
  | started (jar : List Char) (port : Int)
deriving DecidableEq, Repr

/-- Whether the process exits with a nonzero status (`sys.exit(1)` or an
uncaught exception) instead of running the bridge. -/
def MainResult.exitsNonzero : MainResult → Bool
  | .started _ _ => false
  | _ => true

/-- Whether the child LSP process gets spawned. -/
def MainResult.spawnsLsp : MainResult → Bool
  | .started _ _ => true
  | _ => false

/-- The diagnostic line each failing outcome emits on stderr. -/
def mainDiagnostic : MainResult → Option (List Char)
  | .usageExit => some "Usage: websocket_bridge.py <lsp-jar-path> [port]".data
  | .portExit a => some ("invalid literal for int() with base 10: ".data ++ a)
  | .jarExit j => some ("ERROR: LSP JAR not found: ".data ++ j)
  | .started _ _ => none

/-- The script entry point `main`: argv check, then `int(sys.argv[2])` when
given, then the `Path(lsp_jar_path).exists()` check — all before any process
is spawned. (Named `bridge_main` because `main` is reserved in Lean.) -/
def bridge_main (argv : List (List Char)) (pathOk : List Char → Bool) : MainResult :=
  if argv.length < 2 then .usageExit
  else
    let jar := argv.getD 1 []
    match (if 2 < argv.length then pyInt (pyStrip (argv.getD 2 [])) else some 5007) with
    | none => .portExit (argv.getD 2 [])
    | some port =>
      if pathOk jar then .started jar port else .jarExit jar

/-- The continuation after a serialized number must not begin with a digit,
or the greedy number parse would consume it. -/
def numTailOk : List Char → Bool
  | [] => true
  | c :: _ => !isDigitCh c

/-- The characters that can start a serialized JSON value. -/
def jsonHead (c : Char) : Prop :=
  c = 'n' ∨ c = 't' ∨ c = 'f' ∨ c = '"' ∨ c = '[' ∨ c = '\x7b' ∨ c = '-' ∨ isDigitCh c = true

/-! ## Sanity evaluations of the model -/

theorem sanity_dumps_ping :
    dumps (Json.obj (.cons "method".data (Json.str "ping".data) .nil)) =
      "\x7b\"method\": \"ping\"\x7d".data := by decide

theorem sanity_loads_compact :
    loads "\x7b\"id\":1,\"x\":2\x7d".data =
      some (Json.obj (.cons "id".data (Json.num 1) (.cons "x".data (Json.num 2) .nil))) := by
  decide

theorem sanity_loads_garbage : loads "garbage".data = none := by decide

/-! ## Character facts -/

theorem charToNat_inj {c d : Char} (h : c.toNat = d.toNat) : c = d :=
  Char.ext (UInt32.toNat.inj h)

theorem char_valid_toNat (c : Char) :
    c.toNat < 55296 ∨ (57343 < c.toNat ∧ c.toNat < 1114112) := by
  have h := c.valid
  rcases h with h | ⟨h1, h2⟩
  · left
    simpa [UInt32.lt_def, BitVec.lt_def, Char.toNat, UInt32.toNat] using h
  · right
    constructor
    · simpa [UInt32.lt_def, BitVec.lt_def, Char.toNat, UInt32.toNat] using h1
    · simpa [UInt32.lt_def, BitVec.lt_def, Char.toNat, UInt32.toNat] using h2

theorem isDigitCh_toNat {c : Char} (h : isDigitCh c = true) :
    48 ≤ c.toNat ∧ c.toNat ≤ 57 := by
  simpa [isDigitCh] using h

/-! ## Digit lemmas -/

theorem digitVal_digitChar {d : Nat} (h : d < 10) : digitVal (digitChar d) = d := by
  interval_cases d <;> decide

theorem isDigitCh_digitChar {d : Nat} (h : d < 10) : isDigitCh (digitChar d) = true := by
  interval_cases d <;> decide

theorem natCharsAux_ne_nil (f n : Nat) : natCharsAux (f + 1) n ≠ [] := by
  simp only [natCharsAux]
  split <;> simp

theorem natCharsAux_digits (f : Nat) :
    ∀ n, ∀ c ∈ natCharsAux f n, isDigitCh c = true := by
  induction f with
  | zero => simp [natCharsAux]
  | succ f ih =>
    intro n c hc
    simp only [natCharsAux] at hc
    split at hc
    · rename_i h10
      simp only [List.mem_singleton] at hc
      subst hc
      exact isDigitCh_digitChar h10
    · rw [List.mem_append, List.mem_singleton] at hc
      rcases hc with h | h
      · exact ih (n / 10) c h
      · subst h
        exact isDigitCh_digitChar (Nat.mod_lt _ (by omega))

theorem natChars_digits (n : Nat) : ∀ c ∈ natChars n, isDigitCh c = true :=
  natCharsAux_digits (n + 1) n

theorem natChars_head (n : Nat) :
    ∃ d ds, natChars n = d :: ds ∧ isDigitCh d = true := by
  cases hq : natChars n with
  | nil => exact absurd hq (natCharsAux_ne_nil n n)
  | cons d ds =>
    exact ⟨d, ds, rfl, natChars_digits n d (hq ▸ List.mem_cons_self d ds)⟩

theorem munchDigits_stop (cs : List Char) (acc : Nat) (h : numTailOk cs = true) :
    munchDigits cs acc = (acc, cs) := by
  cases cs with
  | nil => simp [munchDigits]
  | cons c r =>
    simp only [numTailOk, Bool.not_eq_true'] at h
    simp [munchDigits, h]

theorem munchDigits_natCharsAux (f : Nat) :
    ∀ n acc rest, n < 10 ^ f →
      munchDigits (natCharsAux f n ++ rest) acc =
        munchDigits rest (acc * 10 ^ (natCharsAux f n).length + n) := by
  induction f with
  | zero =>
    intro n acc rest h
    interval_cases n
    simp [natCharsAux, munchDigits]
  | succ f ih =>
    intro n acc rest h
    by_cases h10 : n < 10
    · simp only [natCharsAux, if_pos h10, List.singleton_append, List.length_singleton,
        munchDigits, isDigitCh_digitChar h10, if_pos, digitVal_digitChar h10, pow_one]
    · have hdiv : n / 10 < 10 ^ f := by
        rw [Nat.div_lt_iff_lt_mul (by omega)]
        calc n < 10 ^ (f + 1) := h
        _ = 10 ^ f * 10 := by rw [pow_succ]
      have hmod : n % 10 < 10 := Nat.mod_lt _ (by omega)
      simp only [natCharsAux, if_neg h10, List.append_assoc, List.singleton_append]
      rw [ih (n / 10) acc _ hdiv]
      simp only [munchDigits, isDigitCh_digitChar hmod, if_pos, digitVal_digitChar hmod,
        List.length_append, List.length_singleton]
      have hp : acc * 10 ^ ((natCharsAux f (n / 10)).length + 1) =
          acc * 10 ^ (natCharsAux f (n / 10)).length * 10 := by ring
      rw [hp]
      congr 1
      omega

theorem lt_ten_pow_succ (n : Nat) : n < 10 ^ (n + 1) := by
  calc n < 10 ^ n := Nat.lt_pow_self (by omega) n
  _ ≤ 10 ^ (n + 1) := Nat.pow_le_pow_right (by omega) (by omega)

theorem munchDigits_natChars (n : Nat) (rest : List Char) (h : numTailOk rest = true) :
    munchDigits (natChars n ++ rest) 0 = (n, rest) := by
  rw [show natChars n = natCharsAux (n + 1) n from rfl,
    munchDigits_natCharsAux (n + 1) n 0 rest (lt_ten_pow_succ n),
    munchDigits_stop rest _ h]
  simp

theorem parseNatM_natChars (n : Nat) (rest : List Char) (h : numTailOk rest = true) :
    parseNatM (natChars n ++ rest) = some (n, rest) := by
  obtain ⟨d, ds, hds, hd⟩ := natChars_head n
  have key := munchDigits_natChars n rest h
  rw [hds] at key ⊢
  simp only [List.cons_append, munchDigits, hd, if_pos] at key
  simp only [List.cons_append, parseNatM, hd, if_pos]
  simpa using key

theorem parseNatFull_natChars (n : Nat) : parseNatFull (natChars n) = some n := by
  have h := parseNatM_natChars n [] (by decide)
  rw [List.append_nil] at h
  simp [parseNatFull, h]

/-- A decimal digit differs from any character outside the digit range. -/
theorem digit_ne_char {c d : Char} (hb : isDigitCh c = true)
    (hd : d.toNat < 48 ∨ 57 < d.toNat) : c ≠ d := by
  have h := isDigitCh_toNat hb
  intro e
  subst e
  omega

theorem isJsonWs_of_digit {c : Char} (hb : isDigitCh c = true) : isJsonWs c = false := by
  have h := isDigitCh_toNat hb
  simp only [isJsonWs, Bool.or_eq_false_iff, beq_eq_false_iff_ne]
  refine ⟨⟨⟨?_, ?_⟩, ?_⟩, ?_⟩ <;> exact digit_ne_char hb (by decide)

/-! ## Number serialization round-trip -/

theorem parseNum_intChars (n : Int) (rest : List Char) (h : numTailOk rest = true) :
    parseNum (intChars n ++ rest) = some (n, rest) := by
  by_cases hneg : n < 0
  · simp only [intChars, if_pos hneg, List.cons_append, parseNum, if_pos]
    rw [parseNatM_natChars _ rest h]
    simp only [Option.some.injEq, Prod.mk.injEq, and_true]
    omega
  · obtain ⟨d, ds, hds, hd⟩ := natChars_head n.toNat
    have hm : d ≠ '-' := digit_ne_char hd (by decide)
    simp only [intChars, if_neg hneg, hds, List.cons_append, parseNum, if_neg hm]
    rw [← List.cons_append, ← hds, parseNatM_natChars _ rest h]
    simp only [Option.some.injEq, Prod.mk.injEq, and_true]
    omega

theorem pyInt_natChars (n : Nat) : pyInt (natChars n) = some (n : Int) := by
  obtain ⟨d, ds, hds, hd⟩ := natChars_head n
  have hm : d ≠ '-' := digit_ne_char hd (by decide)
  have hp : d ≠ '+' := digit_ne_char hd (by decide)
  simp only [hds, pyInt, if_neg hm, if_neg hp]
  rw [← hds, parseNatFull_natChars]
  simp

theorem pyInt_neg_natChars (n : Nat) : pyInt ('-' :: natChars n) = some (-(n : Int)) := by
  simp only [pyInt, if_pos]
  rw [parseNatFull_natChars]
  simp

/-! ## Hex escape lemmas -/

theorem hexVal_hexDigitChar {d : Nat} (h : d < 16) : hexVal (hexDigitChar d) = some d := by
  interval_cases d <;> decide

theorem hex4Val_hex4 {n : Nat} (h : n < 65536) :
    hex4Val (hexDigitChar (n / 4096 % 16)) (hexDigitChar (n / 256 % 16))
      (hexDigitChar (n / 16 % 16)) (hexDigitChar (n % 16)) = some n := by
  unfold hex4Val
  rw [hexVal_hexDigitChar (Nat.mod_lt _ (by omega)), hexVal_hexDigitChar (Nat.mod_lt _ (by omega)),
    hexVal_hexDigitChar (Nat.mod_lt _ (by omega)), hexVal_hexDigitChar (Nat.mod_lt _ (by omega))]
  simp only [Option.some.injEq]
  omega

/-! ## String body round-trip -/

theorem readHex4_hex4 {m : Nat} (hm : m < 65536) (X : List Char) :
    readHex4 (hex4 m ++ X) = some (m, X) := by
  simp only [hex4, List.cons_append, List.nil_append, readHex4]
  rw [hex4Val_hex4 hm]
  simp

theorem decodeEsc_u_bmp {m : Nat} (hm : m < 65536)
    (hlo : ¬ (55296 ≤ m ∧ m < 56320)) (hhi : ¬ (56320 ≤ m ∧ m < 57344)) (X : List Char) :
    decodeEsc ('u' :: (hex4 m ++ X)) = some (Char.ofNat m, X) := by
  simp [decodeEsc, readHex4_hex4 hm, hlo, hhi]

theorem decodeEsc_u_pair {hi lo : Nat}
    (hh : 55296 ≤ hi ∧ hi < 56320) (hl : 56320 ≤ lo ∧ lo < 57344) (X : List Char) :
    decodeEsc ('u' :: (hex4 hi ++ ('\\' :: ('u' :: (hex4 lo ++ X))))) =
      some (Char.ofNat (65536 + (hi - 55296) * 1024 + (lo - 56320)), X) := by
  have hhi16 : hi < 65536 := by omega
  have hlo16 : lo < 65536 := by omega
  simp [decodeEsc, readHex4_hex4 hhi16, readHex4_hex4 hlo16, hh.1, hh.2, hl.1, hl.2]

theorem escapeChar_length_pos (c : Char) : 1 ≤ (escapeChar c).length := by
  unfold escapeChar
  split_ifs <;> simp [hex4]

theorem parseStrBody_strChars (s : List Char) :
    ∀ (k : Nat) (rest : List Char), (strChars s).length < k →
      parseStrBody k (strChars s ++ '"' :: rest) = some (s, rest) := by
  induction s with
  | nil =>
    intro k rest hk
    cases k with
    | zero => omega
    | succ k => simp [strChars, parseStrBody]
  | cons c s ih =>
    intro k rest hk
    have hsp : strChars (c :: s) = escapeChar c ++ strChars s := by simp [strChars]
    have hone := escapeChar_length_pos c
    cases k with
    | zero => omega
    | succ k =>
      have hk' : (strChars s).length < k := by
        rw [hsp, List.length_append] at hk
        omega
      rw [hsp, List.append_assoc]
      by_cases h1 : c = '"'
      · subst h1; simp [escapeChar, parseStrBody, decodeEsc, ih k rest hk']
      · by_cases h2 : c = '\\'
        · subst h2; simp [escapeChar, parseStrBody, decodeEsc, ih k rest hk']
        · by_cases h3 : c = '\n'
          · subst h3; simp [escapeChar, parseStrBody, decodeEsc, ih k rest hk']
          · by_cases h4 : c = '\r'
            · subst h4; simp [escapeChar, parseStrBody, decodeEsc, ih k rest hk']
            · by_cases h5 : c = '\t'
              · subst h5; simp [escapeChar, parseStrBody, decodeEsc, ih k rest hk']
              · by_cases h6 : c.toNat = 8
                · have hc : c = '\x08' := charToNat_inj (by rw [h6]; rfl)
                  subst hc
                  simp [escapeChar, parseStrBody, decodeEsc, ih k rest hk']
                · by_cases h7 : c.toNat = 12
                  · have hc : c = '\x0c' := charToNat_inj (by rw [h7]; rfl)
                    subst hc
                    simp [escapeChar, parseStrBody, decodeEsc, ih k rest hk']
                  · by_cases h8 : 32 ≤ c.toNat ∧ c.toNat ≤ 126
                    · have hlt : ¬ (c.toNat < 32) := by omega
                      simp only [escapeChar, if_neg h1, if_neg h2, if_neg h3, if_neg h4,
                        if_neg h5, if_neg h6, if_neg h7, if_pos h8, List.singleton_append]
                      simp [parseStrBody, h1, h2, hlt, ih k rest hk']
                    · by_cases h9 : c.toNat < 65536
                      · have hval := char_valid_toNat c
                        have hB : ¬ (55296 ≤ c.toNat ∧ c.toNat < 56320) := by omega
                        have hC : ¬ (56320 ≤ c.toNat ∧ c.toNat < 57344) := by omega
                        simp only [escapeChar, if_neg h1, if_neg h2, if_neg h3, if_neg h4,
                          if_neg h5, if_neg h6, if_neg h7, if_neg h8, if_pos h9,
                          List.cons_append]
                        simp [parseStrBody, decodeEsc_u_bmp h9 hB hC, ih k rest hk']
                      · have hval := char_valid_toNat c
                        have harith :
                            65536 + (55296 + (c.toNat - 65536) / 1024 - 55296) * 1024 +
                              (56320 + (c.toNat - 65536) % 1024 - 56320) = c.toNat := by
                          omega
                        simp only [escapeChar, if_neg h1, if_neg h2, if_neg h3, if_neg h4,
                          if_neg h5, if_neg h6, if_neg h7, if_neg h8, if_neg h9,
                          List.cons_append, List.append_assoc]
                        simp [parseStrBody,
                          @decodeEsc_u_pair (55296 + (c.toNat - 65536) / 1024)
                            (56320 + (c.toNat - 65536) % 1024)
                            (by constructor <;> omega)
                            (by constructor <;> omega)
                            (strChars s ++ '"' :: rest),
                          harith, ih k rest hk']
                        rw [show 65536 + (c.toNat - 65536) / 1024 * 1024 +
                            (c.toNat - 65536) % 1024 = c.toNat from by omega,
                          Char.ofNat_toNat]

/-! ## Supporting lemmas for the value round-trip -/

theorem skipWs_not {c : Char} (h : isJsonWs c = false) (cs : List Char) :
    skipWs (c :: cs) = c :: cs := by
  simp [skipWs, h]

theorem skipWs_append_ws :
    ∀ (pre : List Char), (∀ c ∈ pre, isJsonWs c = true) →
      ∀ cs, skipWs (pre ++ cs) = skipWs cs := by
  intro pre
  induction pre with
  | nil => intro _ cs; rfl
  | cons p ps ih =>
    intro h cs
    have hp : isJsonWs p = true := h p (List.mem_cons_self p ps)
    simp only [List.cons_append, skipWs, hp, if_pos]
    exact ih (fun c hc => h c (List.mem_cons_of_mem p hc)) cs

theorem parseVal_ws_append (k : Nat) (pre cs : List Char)
    (h : ∀ c ∈ pre, isJsonWs c = true) :
    parseVal k (pre ++ cs) = parseVal k cs := by
  cases k with
  | zero => rfl
  | succ k =>
    simp only [parseVal]
    rw [skipWs_append_ws pre h cs]

theorem dropLit_self (ls : List Char) : ∀ X, dropLit ls (ls ++ X) = some X := by
  induction ls with
  | nil => intro X; rfl
  | cons l ls ih => intro X; simp [dropLit, ih]

theorem dumps_head (m : Json) : ∃ c r, dumps m = c :: r ∧ jsonHead c := by
  cases m with
  | null => exact ⟨'n', ['u', 'l', 'l'], by simp [dumps], by simp [jsonHead]⟩
  | bool b =>
    cases b with
    | true => exact ⟨'t', ['r', 'u', 'e'], by simp [dumps], by simp [jsonHead]⟩
    | false => exact ⟨'f', ['a', 'l', 's', 'e'], by simp [dumps], by simp [jsonHead]⟩
  | num n =>
    by_cases hn : n < 0
    · exact ⟨'-', natChars n.natAbs, by simp [dumps, intChars, hn], by simp [jsonHead]⟩
    · obtain ⟨d, ds, hds, hd⟩ := natChars_head n.toNat
      exact ⟨d, ds, by simp [dumps, intChars, hn, hds], Or.inr (Or.inr (Or.inr (Or.inr
        (Or.inr (Or.inr (Or.inr hd))))))⟩
  | str s => exact ⟨'"', strChars s ++ ['"'], by simp [dumps], by simp [jsonHead]⟩
  | arr xs =>
    cases xs with
    | nil => exact ⟨'[', [']'], by simp [dumps], by simp [jsonHead]⟩
    | cons x xs =>
      exact ⟨'[', dumps x ++ (dumpsElems xs ++ [']']), by simp [dumps], by simp [jsonHead]⟩
  | obj kvs =>
    cases kvs with
    | nil => exact ⟨'\x7b', ['\x7d'], by simp [dumps], by simp [jsonHead]⟩
    | cons k v kvs =>
      exact ⟨'\x7b', ('"' :: strChars k ++ '"' :: ':' :: ' ' :: dumps v) ++
        (dumpsMembers kvs ++ ['\x7d']), by simp [dumps], by simp [jsonHead]⟩

theorem jsonHead_not_ws {c : Char} (h : jsonHead c) : isJsonWs c = false := by
  rcases h with rfl | rfl | rfl | rfl | rfl | rfl | rfl | hd
  · decide
  · decide
  · decide
  · decide
  · decide
  · decide
  · decide
  · exact isJsonWs_of_digit hd

theorem jsonHead_ne_rbrack {c : Char} (h : jsonHead c) : c ≠ ']' := by
  rcases h with rfl | rfl | rfl | rfl | rfl | rfl | rfl | hd
  · decide
  · decide
  · decide
  · decide
  · decide
  · decide
  · decide
  · exact digit_ne_char hd (by decide)

theorem jsonHead_ne_rbrace {c : Char} (h : jsonHead c) : c ≠ '\x7d' := by
  rcases h with rfl | rfl | rfl | rfl | rfl | rfl | rfl | hd
  · decide
  · decide
  · decide
  · decide
  · decide
  · decide
  · decide
  · exact digit_ne_char hd (by decide)

theorem skipWs_dumps (m : Json) (r : List Char) :
    skipWs (dumps m ++ r) = dumps m ++ r := by
  obtain ⟨c, cs, hc, hh⟩ := dumps_head m
  rw [hc, List.cons_append, skipWs_not (jsonHead_not_ws hh)]

theorem numTailOk_elems (xs : JArr) (r : List Char) :
    numTailOk (dumpsElems xs ++ ']' :: r) = true := by
  cases xs with
  | nil =>
    simp only [dumpsElems, List.nil_append, numTailOk]
    decide
  | cons y ys =>
    simp only [dumpsElems, List.cons_append, numTailOk]
    decide

theorem numTailOk_members (kvs : JMems) (r : List Char) :
    numTailOk (dumpsMembers kvs ++ '\x7d' :: r) = true := by
  cases kvs with
  | nil =>
    simp only [dumpsMembers, List.nil_append, numTailOk]
    decide
  | cons k v kvs =>
    simp only [dumpsMembers, List.cons_append, numTailOk]
    decide

/-! ## The value round-trip -/

theorem parse_dumps_all : ∀ k : Nat,
    (∀ (m : Json) (rest : List Char), (dumps m).length < k → numTailOk rest = true →
      parseVal k (dumps m ++ rest) = some (m, rest)) ∧
    (∀ (x : Json) (xs : JArr) (pre rest : List Char), (∀ c ∈ pre, isJsonWs c = true) →
      (dumps x).length + (dumpsElems xs).length + 2 ≤ k →
      parseElems k (pre ++ (dumps x ++ (dumpsElems xs ++ (']' :: rest)))) =
        some (JArr.cons x xs, rest)) ∧
    (∀ (key : List Char) (v : Json) (kvs : JMems) (pre rest : List Char),
      (∀ c ∈ pre, isJsonWs c = true) →
      (dumps v).length + (dumpsMembers kvs).length + 2 ≤ k →
      parseMembers k (pre ++ ('"' :: (strChars key ++ ('"' :: (':' :: (' ' ::
          (dumps v ++ (dumpsMembers kvs ++ ('\x7d' :: rest)))))))))  =
        some (JMems.cons key v kvs, rest)) := by
  intro k
  induction k using Nat.strong_induction_on with
  | _ k ih =>
    refine ⟨?_, ?_, ?_⟩
    · -- parseVal inverts dumps
      intro m rest hlen htail
      cases k with
      | zero => omega
      | succ k1 =>
        cases m with
        | null =>
          rw [show dumps Json.null ++ rest = 'n' :: ('u' :: 'l' :: 'l' :: rest) by
            simp [dumps]]
          simp only [parseVal]
          rw [skipWs_not (by decide)]
          simp [dropLit]
        | bool b =>
          cases b with
          | true =>
            rw [show dumps (Json.bool true) ++ rest = 't' :: ('r' :: 'u' :: 'e' :: rest) by
              simp [dumps]]
            simp only [parseVal]
            rw [skipWs_not (by decide)]
            simp [dropLit]
          | false =>
            rw [show dumps (Json.bool false) ++ rest =
                'f' :: ('a' :: 'l' :: 's' :: 'e' :: rest) by simp [dumps]]
            simp only [parseVal]
            rw [skipWs_not (by decide)]
            simp [dropLit]
        | num n =>
          have hp := parseNum_intChars n rest htail
          by_cases hn : n < 0
          · rw [show dumps (Json.num n) ++ rest = '-' :: (natChars n.natAbs ++ rest) by
              simp [dumps, intChars, hn]]
            simp only [parseVal]
            rw [skipWs_not (by decide)]
            rw [show intChars n ++ rest = '-' :: (natChars n.natAbs ++ rest) by
              simp [intChars, hn]] at hp
            simp [hp]
          · obtain ⟨d, ds, hds, hd⟩ := natChars_head n.toNat
            have e : dumps (Json.num n) ++ rest = d :: (ds ++ rest) := by
              simp [dumps, intChars, hn, hds]
            rw [e]
            simp only [parseVal]
            rw [skipWs_not (isJsonWs_of_digit hd)]
            rw [show intChars n ++ rest = d :: (ds ++ rest) by
              simp [intChars, hn, hds]] at hp
            simp [digit_ne_char hd (by decide : ('n' : Char).toNat < 48 ∨ 57 < ('n' : Char).toNat),
              digit_ne_char hd (by decide : ('t' : Char).toNat < 48 ∨ 57 < ('t' : Char).toNat),
              digit_ne_char hd (by decide : ('f' : Char).toNat < 48 ∨ 57 < ('f' : Char).toNat),
              digit_ne_char hd (by decide : ('"' : Char).toNat < 48 ∨ 57 < ('"' : Char).toNat),
              digit_ne_char hd (by decide : ('[' : Char).toNat < 48 ∨ 57 < ('[' : Char).toNat),
              digit_ne_char hd (by decide : ('\x7b' : Char).toNat < 48 ∨ 57 < ('\x7b' : Char).toNat),
              hp]
        | str s =>
          rw [show dumps (Json.str s) ++ rest = '"' :: (strChars s ++ ('"' :: rest)) by
            simp [dumps]]
          simp only [parseVal]
          rw [skipWs_not (by decide)]
          have hps := parseStrBody_strChars s ((strChars s).length + (rest.length + 1) + 1)
            rest (by omega)
          simp [hps]
        | arr xs =>
          cases xs with
          | nil =>
            rw [show dumps (Json.arr JArr.nil) ++ rest = '[' :: (']' :: rest) by simp [dumps]]
            simp only [parseVal]
            rw [skipWs_not (by decide)]
            simp [skipWs_not (by decide : isJsonWs ']' = false)]
          | cons x xs =>
            obtain ⟨c, cr, hcx, hhx⟩ := dumps_head x
            have e : dumps (Json.arr (JArr.cons x xs)) ++ rest =
                '[' :: (dumps x ++ (dumpsElems xs ++ (']' :: rest))) := by
              simp [dumps]
            rw [e]
            simp only [parseVal]
            rw [skipWs_not (by decide)]
            have hlen' : (dumps x).length + (dumpsElems xs).length + 2 ≤ k1 := by
              have : (dumps (Json.arr (JArr.cons x xs))).length =
                  (dumps x).length + (dumpsElems xs).length + 2 := by
                simp only [dumps, List.length_append, List.length_cons, List.length_nil]
                omega
              omega
            have hq := (ih k1 (by omega)).2.1 x xs [] rest (by simp) hlen'
            rw [List.nil_append] at hq
            rw [hcx, List.cons_append] at hq
            simp [hcx, skipWs_not (jsonHead_not_ws hhx), jsonHead_ne_rbrack hhx, hq]
        | obj kvs =>
          cases kvs with
          | nil =>
            rw [show dumps (Json.obj JMems.nil) ++ rest = '\x7b' :: ('\x7d' :: rest) by
              simp [dumps]]
            simp only [parseVal]
            rw [skipWs_not (by decide)]
            simp [skipWs_not (by decide : isJsonWs '\x7d' = false)]
          | cons key v kvs =>
            have e : dumps (Json.obj (JMems.cons key v kvs)) ++ rest =
                '\x7b' :: ('"' :: (strChars key ++ ('"' :: (':' :: (' ' ::
                  (dumps v ++ (dumpsMembers kvs ++ ('\x7d' :: rest)))))))) := by
              simp [dumps]
            rw [e]
            simp only [parseVal]
            rw [skipWs_not (by decide)]
            have hlen' : (dumps v).length + (dumpsMembers kvs).length + 2 ≤ k1 := by
              have : (dumps (Json.obj (JMems.cons key v kvs))).length =
                  (strChars key).length + (dumps v).length +
                    (dumpsMembers kvs).length + 6 := by
                simp only [dumps, List.length_append, List.length_cons, List.length_nil]
                omega
              omega
            have hr := (ih k1 (by omega)).2.2 key v kvs [] rest (by simp) hlen'
            rw [List.nil_append] at hr
            simp [skipWs_not (by decide : isJsonWs '"' = false), hr]
    · -- parseElems inverts a nonempty element list
      intro x xs pre rest hpre hbound
      cases k with
      | zero => omega
      | succ k2 =>
        simp only [parseElems]
        rw [parseVal_ws_append k2 pre _ hpre]
        have hx := (ih k2 (by omega)).1 x (dumpsElems xs ++ (']' :: rest))
          (by omega) (numTailOk_elems xs rest)
        rw [hx]
        cases xs with
        | nil =>
          simp only [dumpsElems, List.nil_append]
          rw [skipWs_not (by decide)]
          simp
        | cons y ys =>
          simp only [dumpsElems, List.cons_append]
          rw [skipWs_not (by decide)]
          have hbound' : (dumps y).length + (dumpsElems ys).length + 2 ≤ k2 := by
            have : (dumpsElems (JArr.cons y ys)).length =
                (dumps y).length + (dumpsElems ys).length + 2 := by
              simp [dumpsElems, List.length_append]
            omega
          have hq := (ih k2 (by omega)).2.1 y ys [' '] rest (by decide) hbound'
          rw [show ([' '] ++ (dumps y ++ (dumpsElems ys ++ (']' :: rest)))) =
            ' ' :: (dumps y ++ (dumpsElems ys ++ (']' :: rest))) from rfl] at hq
          simp [hq]
    · -- parseMembers inverts a nonempty member list
      intro key v kvs pre rest hpre hbound
      cases k with
      | zero => omega
      | succ k2 =>
        simp only [parseMembers]
        rw [skipWs_append_ws pre hpre, skipWs_not (by decide : isJsonWs '"' = false)]
        have hv := (ih k2 (by omega)).1 v (dumpsMembers kvs ++ ('\x7d' :: rest))
          (by omega) (numTailOk_members kvs rest)
        have hv2 : parseVal k2 (' ' :: (dumps v ++ (dumpsMembers kvs ++ ('\x7d' :: rest)))) =
            some (v, dumpsMembers kvs ++ ('\x7d' :: rest)) := by
          rw [show (' ' :: (dumps v ++ (dumpsMembers kvs ++ ('\x7d' :: rest)))) =
            [' '] ++ (dumps v ++ (dumpsMembers kvs ++ ('\x7d' :: rest))) from rfl,
            parseVal_ws_append k2 [' '] _ (by decide)]
          exact hv
        cases kvs with
        | nil =>
          simp only [dumpsMembers, List.nil_append, List.cons_append, List.append_assoc] at hv2
          simp (disch := omega) [parseStrBody_strChars, hv2, dumpsMembers,
            skipWs_not (by decide : isJsonWs ':' = false),
            skipWs_not (by decide : isJsonWs '\x7d' = false)]
        | cons key2 v2 kvs2 =>
          simp only [dumpsMembers, List.cons_append, List.append_assoc] at hv2
          have hbound2 : (dumps v2).length + (dumpsMembers kvs2).length + 2 ≤ k2 := by
            have : (dumpsMembers (JMems.cons key2 v2 kvs2)).length =
                (strChars key2).length + (dumps v2).length +
                  (dumpsMembers kvs2).length + 6 := by
              simp only [dumpsMembers, List.length_append, List.length_cons, List.length_nil]
              omega
            omega
          have hr := (ih k2 (by omega)).2.2 key2 v2 kvs2 [' '] rest (by decide) hbound2
          rw [show ([' '] ++ ('"' :: (strChars key2 ++ ('"' :: (':' :: (' ' ::
            (dumps v2 ++ (dumpsMembers kvs2 ++ ('\x7d' :: rest))))))))) =
            ' ' :: ('"' :: (strChars key2 ++ ('"' :: (':' :: (' ' ::
            (dumps v2 ++ (dumpsMembers kvs2 ++ ('\x7d' :: rest)))))))) from rfl] at hr
          simp (disch := omega) [parseStrBody_strChars, hv2, hr, dumpsMembers,
            skipWs_not (by decide : isJsonWs ':' = false),
            skipWs_not (by decide : isJsonWs ',' = false)]

/-- `json.loads` inverts `json.dumps`: the JSON value round-trip. -/
theorem loads_dumps (m : Json) : loads (dumps m) = some m := by
  unfold loads
  have h := (parse_dumps_all ((dumps m).length + 1)).1 m [] (by omega) (by decide)
  rw [List.append_nil] at h
  rw [h]
  simp [skipWs]

/-! ## Stream primitive lemmas -/

theorem readLine_append (a : List Char) (h : '\n' ∉ a) (b : List Char) :
    readLine (a ++ '\n' :: b) = (a ++ ['\n'], b) := by
  induction a with
  | nil => simp [readLine]
  | cons c cs ih =>
    have hc : ¬ c = '\n' := fun e => h (e ▸ List.mem_cons_self c cs)
    have hm : '\n' ∉ cs := fun hm => h (List.mem_cons_of_mem c hm)
    simp [readLine, hc, ih hm]

theorem pyRstrip_header (txt : List Char) :
    pyRstrip (clPrefix ++ (txt ++ ['\n'])) = clPrefix ++ pyRstrip txt := by
  unfold pyRstrip
  have h1 : (clPrefix ++ (txt ++ ['\n'])).reverse = '\n' :: (txt.reverse ++ clPrefix.reverse) := by
    simp
  rw [h1, List.dropWhile_cons_of_pos (by decide), List.dropWhile_append]
  have hcl : List.dropWhile isStripWs clPrefix.reverse = clPrefix.reverse := by decide
  by_cases he : (List.dropWhile isStripWs txt.reverse).isEmpty
  · rw [if_pos he, hcl]
    rw [List.isEmpty_iff] at he
    simp [he]
  · rw [if_neg he]
    simp

theorem pyStrip_header (txt : List Char) :
    pyStrip (clPrefix ++ (txt ++ ['\n'])) = clPrefix ++ pyRstrip txt := by
  unfold pyStrip
  rw [pyRstrip_header]
  rw [show clPrefix ++ pyRstrip txt = 'C' :: ("ontent-Length:".data ++ pyRstrip txt) by
    simp [clPrefix]]
  rw [List.dropWhile_cons_of_neg (by decide)]

theorem splitColonAux_no_colon (l : List Char) (h : ':' ∉ l) (acc : List Char) :
    splitColonAux l acc = [acc.reverse ++ l] := by
  induction l generalizing acc with
  | nil => simp [splitColonAux]
  | cons c cs ih =>
    have hc : ¬ c = ':' := fun e => h (e ▸ List.mem_cons_self c cs)
    have hm : ':' ∉ cs := fun hm => h (List.mem_cons_of_mem c hm)
    simp [splitColonAux, hc, ih hm]

theorem pySplitColon_header (txt : List Char) (h : ':' ∉ txt) :
    pySplitColon (clPrefix ++ txt) = ["Content-Length".data, txt] := by
  have e : clPrefix ++ txt = 'C' :: 'o' :: 'n' :: 't' :: 'e' :: 'n' :: 't' :: '-' :: 'L' ::
      'e' :: 'n' :: 'g' :: 't' :: 'h' :: ':' :: txt := by simp [clPrefix]
  rw [pySplitColon, e]
  simp [splitColonAux, splitColonAux_no_colon txt h]

theorem isPrefixOf_append_self (l t : List Char) : l.isPrefixOf (l ++ t) = true := by
  induction l with
  | nil => simp [List.isPrefixOf]
  | cons c cs ih => simp [List.isPrefixOf, ih]

theorem isStripWs_of_digit {c : Char} (h : isDigitCh c = true) : isStripWs c = false := by
  simp only [isStripWs, Bool.or_eq_false_iff, beq_eq_false_iff_ne]
  refine ⟨⟨⟨⟨⟨?_, ?_⟩, ?_⟩, ?_⟩, ?_⟩, ?_⟩ <;> exact digit_ne_char h (by decide)

theorem natChars_rev_shape (n : Nat) :
    ∃ e es, (natChars n).reverse = e :: es ∧ isDigitCh e = true ∧
      natChars n = es.reverse ++ [e] := by
  cases hre : (natChars n).reverse with
  | nil =>
    exact absurd (by simpa using congrArg List.reverse hre) (natCharsAux_ne_nil n n)
  | cons e es =>
    have he : e ∈ natChars n := by
      rw [← List.mem_reverse, hre]
      exact List.mem_cons_self e es
    refine ⟨e, es, rfl, natChars_digits n e he, ?_⟩
    rw [← List.reverse_reverse (natChars n), hre]
    simp

theorem pyRstrip_digits_cr (n : Nat) :
    pyRstrip ((' ' :: natChars n) ++ ['\r']) = ' ' :: natChars n := by
  obtain ⟨e, es, hre, hde, hn⟩ := natChars_rev_shape n
  unfold pyRstrip
  have e1 : ((' ' :: natChars n) ++ ['\r']).reverse =
      '\r' :: (e :: (es ++ [' '])) := by
    simp [hre]
  rw [e1, List.dropWhile_cons_of_pos (by decide),
    List.dropWhile_cons_of_neg (by simp [isStripWs_of_digit hde])]
  simp [hn]

theorem pyStrip_spaced_digits (n : Nat) : pyStrip (' ' :: natChars n) = natChars n := by
  obtain ⟨e, es, hre, hde, hn⟩ := natChars_rev_shape n
  obtain ⟨d, ds, hds, hd⟩ := natChars_head n
  unfold pyStrip pyRstrip
  have e1 : (' ' :: natChars n).reverse = e :: (es ++ [' ']) := by
    simp [hre]
  rw [e1, List.dropWhile_cons_of_neg (by simp [isStripWs_of_digit hde])]
  have e2 : (e :: (es ++ [' '])).reverse = ' ' :: natChars n := by
    simp [hn]
  rw [e2, List.dropWhile_cons_of_pos (by decide), hds,
    List.dropWhile_cons_of_neg (by simp [isStripWs_of_digit hd])]

/-- Processing one whole LSP frame at the head of the stream: the header is
parsed, exactly the framed bytes are consumed, and the loop either broadcasts
the decoded message and continues after the frame, or dies on a decode error. -/
theorem read_lsp_output_frame (k : Nat) (s : BridgeState) (body rest : List Char) :
    read_lsp_output (k + 1) s (mkFrame body ++ rest) =
      match loads body with
      | none => ⟨[], .jsonError, s⟩
      | some m =>
        let r := read_lsp_output k s rest
        ⟨(m, broadcastLsp s.clients (dumps m)) :: r.trace, r.exit, r.final⟩ := by
  have hnl : '\n' ∉ clPrefix ++ ((' ' :: natChars body.length) ++ ['\r']) := by
    intro hm
    rw [List.mem_append] at hm
    rcases hm with hm | hm
    · revert hm; decide
    · rw [List.mem_append] at hm
      rcases hm with hm | hm
      · rcases List.mem_cons.mp hm with h | h
        · exact absurd h (by decide)
        · exact absurd (natChars_digits _ '\n' h) (by decide)
      · revert hm; decide
  have hcolon : (':' : Char) ∉ ' ' :: natChars body.length := by
    intro hm
    rcases List.mem_cons.mp hm with h | h
    · exact absurd h (by decide)
    · exact absurd (natChars_digits _ ':' h) (by decide)
  have e1 : mkFrame body ++ rest =
      (clPrefix ++ ((' ' :: natChars body.length) ++ ['\r'])) ++ '\n' ::
        ('\r' :: ('\n' :: (body ++ rest))) := by
    simp [mkFrame, clPrefix]
  rw [e1]
  simp only [read_lsp_output]
  rw [readLine_append _ hnl]
  simp only []
  rw [if_neg (by simp [clPrefix])]
  rw [List.append_assoc, pyStrip_header, pyRstrip_digits_cr]
  rw [if_neg (by simp [clPrefix])]
  rw [if_pos (isPrefixOf_append_self clPrefix (' ' :: natChars body.length))]
  rw [pySplitColon_header _ hcolon]
  simp only [List.getD_cons_succ, List.getD_cons_zero]
  rw [pyStrip_spaced_digits, pyInt_natChars]
  simp [readLine]
  simp only [pyRead]
  rw [if_neg (by omega)]
  rw [show ((body.length : Int)).toNat = body.length from by omega]
  rw [List.take_left, List.drop_left]

/-! ## Bridge loop facts -/

theorem broadcastLsp_eq (cs : List Client) (ms : List Char) :
    broadcastLsp cs ms = cs.map (fun c => ⟨c.cid, c.alive, ms⟩) := by
  cases cs with
  | nil => rfl
  | cons c cs => rfl

theorem read_lsp_output_final (k : Nat) (s : BridgeState) :
    ∀ stream, (read_lsp_output k s stream).final = s := by
  induction k with
  | zero => intro stream; rfl
  | succ k ih =>
    intro stream
    simp only [read_lsp_output]
    split
    · rfl
    · split
      · exact ih _
      · split
        · split
          · rfl
          · split
            · rfl
            · simp [ih]
        · exact ih _

theorem mem_pyRstrip {c : Char} {l : List Char} (h : c ∈ pyRstrip l) : c ∈ l := by
  unfold pyRstrip at h
  rw [List.mem_reverse] at h
  have hs := (List.dropWhile_sublist (l := l.reverse) isStripWs).subset h
  rwa [List.mem_reverse] at hs

theorem dropWhile_idem (p : Char → Bool) (l : List Char) :
    (l.dropWhile p).dropWhile p = l.dropWhile p := by
  induction l with
  | nil => rfl
  | cons c cs ih =>
    by_cases h : p c
    · simp [List.dropWhile_cons, h, ih]
    · simp [List.dropWhile_cons, h]

theorem pyStrip_pyRstrip (l : List Char) : pyStrip (pyRstrip l) = pyStrip l := by
  unfold pyStrip pyRstrip
  rw [List.reverse_reverse, dropWhile_idem]

/-! ## Claim C1: decode failure in the output pump -/

/-- C1 (counterexample): a frame whose body is not valid JSON does not merely
drop that message — the catch-all handler breaks the `while True` loop, so the
valid `null` frame that follows is never decoded or broadcast and the pump
exits with the JSON decode error. -/
theorem c1_counterexample :
    read_lsp_output 5 ⟨[⟨0, true⟩]⟩ (mkFrame "garbage".data ++ mkFrame "null".data) =
      ⟨[], .jsonError, ⟨[⟨0, true⟩]⟩⟩ := by
  decide

/-- C1 (amended): when the N body bytes of a frame are not valid JSON, the
decode fails, the message is dropped, and the pump is terminated by the
catch-all `except` (it does not continue with the next frame), even though
the stream cursor had consumed exactly the framed bytes. -/
theorem c1_amended (s : BridgeState) (k : Nat) (body rest : List Char)
    (h : loads body = none) :
    read_lsp_output (k + 1) s (mkFrame body ++ rest) = ⟨[], .jsonError, s⟩ := by
  rw [read_lsp_output_frame, h]

/-- C1 (witness): the amended claim at a concrete malformed frame. -/
theorem c1_witness :
    loads "garbage".data = none ∧
      read_lsp_output 3 ⟨[]⟩ (mkFrame "garbage".data ++ mkFrame "null".data) =
        ⟨[], .jsonError, ⟨[]⟩⟩ :=
  ⟨by decide, c1_amended ⟨[]⟩ 2 "garbage".data (mkFrame "null".data) (by decide)⟩

/-! ## Claim C2: broadcast failure isolation and (non-)removal -/

/-- C2 (counterexample): broadcasting to clients 0, 1 (alive) and 2 (broken)
delivers to 0 and 1 and raises nothing, but client 2 is NOT removed from (or
scheduled for removal from) the registry: the gather results are discarded and
the registry after the step still contains the broken client. -/
theorem c2_counterexample :
    read_lsp_output 2 ⟨[⟨0, true⟩, ⟨1, true⟩, ⟨2, false⟩]⟩ (mkFrame "null".data) =
      ⟨[(Json.null,
          [⟨0, true, "null".data⟩, ⟨1, true, "null".data⟩, ⟨2, false, "null".data⟩])],
        .eofExit, ⟨[⟨0, true⟩, ⟨1, true⟩, ⟨2, false⟩]⟩⟩ ∧
    (⟨2, false⟩ : Client) ∈
      (read_lsp_output 2 ⟨[⟨0, true⟩, ⟨1, true⟩, ⟨2, false⟩]⟩
        (mkFrame "null".data)).final.clients := by
  constructor
  · decide
  · decide

/-- C2 (amended): per-connection send failures during broadcast are isolated —
every registered client is attempted, every alive client receives the message,
and nothing propagates out of the broadcast — but the failing connection is
not removed from the Registry by the broadcast step; the registry is unchanged
by the whole output pump. -/
theorem c2_amended (cs : List Client) (ms : List Char) :
    (broadcastLsp cs ms).length = cs.length ∧
    (∀ c, c ∈ cs → c.alive = true →
      (⟨c.cid, true, ms⟩ : SendOutcome) ∈ broadcastLsp cs ms) ∧
    (∀ (k : Nat) (s : BridgeState) (stream : List Char), s.clients = cs →
      (read_lsp_output k s stream).final.clients = cs) := by
  refine ⟨?_, ?_, ?_⟩
  · rw [broadcastLsp_eq, List.length_map]
  · intro c hc ha
    rw [broadcastLsp_eq]
    exact List.mem_map.mpr ⟨c, hc, by rw [ha]⟩
  · intro k s stream hs
    rw [read_lsp_output_final, hs]

/-- C2 (witness): the amended claim at a concrete registry with a broken
client. -/
theorem c2_witness :
    (⟨0, true, "m".data⟩ : SendOutcome) ∈
      broadcastLsp [⟨0, true⟩, ⟨2, false⟩] "m".data :=
  (c2_amended [⟨0, true⟩, ⟨2, false⟩] "m".data).2.1 ⟨0, true⟩ (by decide) rfl

/-! ## Claim C3: framing round-trip -/

/-- C3: for every Message m, decoding the frame that `send_to_lsp` style
encoding produces (serialize with `json.dumps`, prefix with the
`Content-Length` header and CRLFCRLF) yields exactly the value m back: the
output pump broadcasts m itself and consumes the whole frame. Whitespace and
separator placement may differ between the original text and `dumps m`, but
the value graph is preserved. -/
theorem c3_framing_roundtrip (m : Json) (s : BridgeState) (k : Nat) :
    read_lsp_output (k + 2) s (encodeFrame m) =
      ⟨[(m, broadcastLsp s.clients (dumps m))], .eofExit, s⟩ := by
  rw [show encodeFrame m = mkFrame (dumps m) ++ [] by simp [encodeFrame]]
  rw [read_lsp_output_frame (k + 1) s (dumps m) [], loads_dumps]
  simp [read_lsp_output, readLine]

/-! ## Claim C4: exact bytes written for a ping message -/

/-- C4 (counterexample): when a client sends the 17-byte text frame
`{"method":"ping"}`, the bytes written to the child process's stdin are not
the claimed `Content-Length: 18\r\n\r\n{"method":"ping"}`: `json.dumps`
re-serializes the message with its default `": "` separator, producing an
18-byte body with a space after the colon. (The claimed frame is also
internally inconsistent: its declared length 18 does not match its own
17-byte body.) -/
theorem c4_counterexample :
    handle_client_message "\x7b\"method\":\"ping\"\x7d".data true =
      .sent "Content-Length: 18\r\n\r\n\x7b\"method\": \"ping\"\x7d".data ∧
    ("Content-Length: 18\r\n\r\n\x7b\"method\": \"ping\"\x7d".data : List Char) ≠
      "Content-Length: 18\r\n\r\n\x7b\"method\":\"ping\"\x7d".data := by
  constructor
  · decide
  · decide

/-- C4 (amended): when a client sends the WebSocket text frame
`{"method":"ping"}`, the bytes written to the child process's standard input
are exactly `Content-Length: 18\r\n\r\n{"method": "ping"}` — the declared
length 18 matches the re-serialized body, which carries a space after the
colon inserted by `json.dumps`. -/
theorem c4_amended :
    handle_client_message "\x7b\"method\":\"ping\"\x7d".data true =
      .sent "Content-Length: 18\r\n\r\n\x7b\"method\": \"ping\"\x7d".data := by
  decide

/-! ## Claim C5: Content-Length header parsing -/

/-- C5 (counterexample): a negative `Content-Length: -2` is not rejected: the
`int()` call parses it successfully, `read(-2)` then reads to end of stream,
and here the resulting bytes even decode, so the message is delivered and the
pump ends at end-of-stream with no error at all. -/
theorem c5_counterexample :
    read_lsp_output 2 ⟨[⟨0, true⟩]⟩ "Content-Length: -2\r\n\r\n\x7b\x7d".data =
      ⟨[(Json.obj .nil, [⟨0, true, "\x7b\x7d".data⟩])], .eofExit, ⟨[⟨0, true⟩]⟩⟩ := by
  decide

/-- C5 (amended): when the text after the colon of a `Content-Length:` header
does not parse as an integer, the `int()` call raises ValueError and the pump
terminates; but a negative value is NOT a parse failure — `int()` accepts a
sign, so `-n` parses successfully (and is then passed to `read`, which treats
a negative count as read-to-end-of-stream). -/
theorem c5_amended :
    (∀ (s : BridgeState) (k : Nat) (txt rest : List Char),
      (':' : Char) ∉ txt → ('\n' : Char) ∉ txt →
      pyInt (pyStrip txt) = none →
      read_lsp_output (k + 1) s (clPrefix ++ (txt ++ ('\n' :: rest))) =
        ⟨[], .valueError, s⟩) ∧
    (∀ n : Nat, pyInt ('-' :: natChars n) = some (-(n : Int))) := by
  constructor
  · intro s k txt rest h1 h2 h3
    have hnl : '\n' ∉ clPrefix ++ txt := by
      intro hm
      rw [List.mem_append] at hm
      rcases hm with hm | hm
      · revert hm; decide
      · exact h2 hm
    rw [show clPrefix ++ (txt ++ ('\n' :: rest)) = (clPrefix ++ txt) ++ '\n' :: rest by
      simp]
    simp only [read_lsp_output]
    rw [readLine_append _ hnl]
    simp only []
    rw [if_neg (by simp [clPrefix])]
    rw [List.append_assoc, pyStrip_header]
    rw [if_neg (by simp [clPrefix])]
    rw [if_pos (isPrefixOf_append_self clPrefix (pyRstrip txt))]
    rw [pySplitColon_header _ (fun hm => h1 (mem_pyRstrip hm))]
    simp only [List.getD_cons_succ, List.getD_cons_zero]
    rw [pyStrip_pyRstrip, h3]
  · exact pyInt_neg_natChars

/-- C5 (witness): the amended claim at a concrete non-numeric header and at
the concrete negative value -2. -/
theorem c5_witness :
    read_lsp_output 1 ⟨[]⟩ (clPrefix ++ (" abc".data ++ ('\n' :: []))) =
      ⟨[], .valueError, ⟨[]⟩⟩ ∧
    pyInt ('-' :: natChars 2) = some (-(2 : Nat) : Int) :=
  ⟨c5_amended.1 ⟨[]⟩ 0 " abc".data [] (by decide) (by decide) (by decide),
   c5_amended.2 2⟩

/-! ## Claim C6: removal of an absent client -/

/-- C6 (counterexample): `set.remove` on a registry not containing the client
raises KeyError (modeled as `Except.error`) — it is not a no-op. -/
theorem c6_counterexample :
    pySetRemove [] ⟨0, true⟩ = .error () := rfl

/-- C6 (amended): removing a present client succeeds, and immediately removing
the same client again raises KeyError: registry removal is not idempotent
(Python `set.remove` raises on a missing element; the code avoids the error
only because each handler removes the connection it added exactly once). -/
theorem c6_amended (cs : List Client) (c : Client) (hnd : cs.Nodup) (hc : c ∈ cs) :
    pySetRemove cs c = .ok (cs.erase c) ∧
      pySetRemove (cs.erase c) c = .error () := by
  constructor
  · simp [pySetRemove, hc]
  · have hnm : c ∉ cs.erase c := List.Nodup.not_mem_erase hnd
    simp [pySetRemove, hnm]

/-- C6 (witness): the amended claim at a one-element registry. -/
theorem c6_witness :
    pySetRemove [(⟨0, true⟩ : Client)] ⟨0, true⟩ = .ok [] ∧
      pySetRemove ([(⟨0, true⟩ : Client)].erase ⟨0, true⟩) ⟨0, true⟩ = .error () := by
  have h := c6_amended [⟨0, true⟩] ⟨0, true⟩ (by decide) (by decide)
  exact ⟨by rw [h.1]; rfl, h.2⟩

/-! ## Claim C7: broadcast fan-out -/

/-- C7: with distinct client ids, a broadcast attempts exactly one send per
registered client (so each client receives exactly one copy of the message),
every attempted send carries the broadcast payload, removing one client
beforehand yields exactly N−1 attempts with nothing raised (the function is
total), and broadcast on an empty registry is a no-op, not an error. -/
theorem c7_fanout (cs : List Client) (ms : List Char) :
    ((cs.map Client.cid).Nodup →
      ∀ c ∈ cs, ((broadcastLsp cs ms).filter (fun o => o.cid == c.cid)).length = 1) ∧
    (∀ o ∈ broadcastLsp cs ms, o.payload = ms) ∧
    (∀ c, c ∈ cs → (broadcastLsp (cs.erase c) ms).length = cs.length - 1) ∧
    broadcastLsp [] ms = [] := by
  refine ⟨?_, ?_, ?_, rfl⟩
  · intro hnd c hc
    rw [broadcastLsp_eq, List.filter_map, List.length_map]
    have h1 : (cs.filter
        (((fun o => o.cid == c.cid) : SendOutcome → Bool) ∘
          (fun c => (⟨c.cid, c.alive, ms⟩ : SendOutcome)))).length =
        ((cs.map Client.cid).filter (fun y => y == c.cid)).length := by
      rw [List.filter_map, List.length_map]
      rfl
    rw [h1, ← List.countP_eq_length_filter, ← List.count_eq_countP]
    exact List.count_eq_one_of_mem hnd (List.mem_map.mpr ⟨c, hc, rfl⟩)
  · intro o ho
    rw [broadcastLsp_eq] at ho
    obtain ⟨c, _, rfl⟩ := List.mem_map.mp ho
    rfl
  · intro c hc
    rw [broadcastLsp_eq, List.length_map, List.length_erase_of_mem hc]

/-- C7 (witness): the fan-out counts at a concrete two-client registry. -/
theorem c7_witness :
    ((broadcastLsp [⟨0, true⟩, ⟨1, true⟩] "m".data).filter
      (fun o => o.cid == (⟨0, true⟩ : Client).cid)).length = 1 ∧
    (broadcastLsp ([⟨0, true⟩, ⟨1, true⟩].erase ⟨0, true⟩) "m".data).length =
      ([(⟨0, true⟩ : Client), ⟨1, true⟩].length - 1) :=
  ⟨(c7_fanout [⟨0, true⟩, ⟨1, true⟩] "m".data).1 (by decide) ⟨0, true⟩ (by decide),
   (c7_fanout [⟨0, true⟩, ⟨1, true⟩] "m".data).2.2.1 ⟨0, true⟩ (by decide)⟩

/-! ## Claim C8: missing executable path -/

/-- C8: if the executable path given on the command line does not exist, the
bridge never spawns the child process, exits with a nonzero status, and emits
a diagnostic message (the jar-not-found error, or — when the port argument is
itself malformed — the uncaught ValueError traceback, which also precedes any
spawn). -/
theorem c8_missing_jar (argv : List (List Char)) (fs : List Char → Bool)
    (hlen : 2 ≤ argv.length) (hfs : fs (argv.getD 1 []) = false) :
    (bridge_main argv fs).spawnsLsp = false ∧
    (bridge_main argv fs).exitsNonzero = true ∧
    (mainDiagnostic (bridge_main argv fs)).isSome = true := by
  unfold bridge_main
  rw [if_neg (by omega)]
  split
  · exact ⟨rfl, rfl, rfl⟩
  · rw [if_neg (by simp only [List.getD, List.get?_eq_getElem?] at hfs; simp [hfs])]
    exact ⟨rfl, rfl, rfl⟩

/-- C8 (witness): concrete argv with a filesystem on which no path exists. -/
theorem c8_witness :
    (bridge_main ["bridge".data, "x.jar".data] (fun _ => false)).spawnsLsp = false ∧
    (bridge_main ["bridge".data, "x.jar".data] (fun _ => false)).exitsNonzero = true ∧
    (mainDiagnostic (bridge_main ["bridge".data, "x.jar".data] (fun _ => false))).isSome =
      true :=
  c8_missing_jar ["bridge".data, "x.jar".data] (fun _ => false) (by decide) rfl

/-! ## Claim C9: broadcasting never mutates registry membership -/

/-- C9: a run of the output pump — including every broadcast it performs,
whether or not individual sends fail — leaves the registry exactly as it was:
the set of registered clients after the run equals the set before it.
Membership is mutated only by the connect/disconnect path of the client
handler (`pySetAdd` on connect, `pySetRemove` in the handler's `finally`). -/
theorem c9_broadcast_preserves_registry (k : Nat) (s : BridgeState) (stream : List Char) :
    (read_lsp_output k s stream).final = s :=
  read_lsp_output_final k s stream

/-! ## Claim C10: send_to_lsp never raises -/

/-- C10: writing a client message to the child process never raises to the
caller: when the stdin pipe is broken the inner write does raise, but
`send_to_lsp` catches it and returns normally (`none`), so the client's
inbound receive loop processes every frame — its event list has one entry per
incoming frame and is a homomorphism over concatenation, i.e. no failure
aborts the loop or closes the connection. -/
theorem c10_send_never_raises (m : Json) (ok : Bool) (frames fs2 : List (List Char)) :
    (sendToLspRaw m false = .error .brokenPipe ∧ send_to_lsp m false = none) ∧
    (handle_client_loop frames ok).length = frames.length ∧
    handle_client_loop (frames ++ fs2) ok =
      handle_client_loop frames ok ++ handle_client_loop fs2 ok := by
  refine ⟨⟨rfl, rfl⟩, ?_, ?_⟩
  · simp [handle_client_loop]
  · simp [handle_client_loop]
